import Mathlib

/-!
Verification of the treasure-discovery pipeline of the TreasuryHunterMobileApp
repository: NFC/QR payload decoding (services/NFCService.ts,
services/AlternativeNFCService.ts), hunter-profile progression
(store/slices/hunterSlice.ts, hooks/useProfile.ts helpers), the proximity
guard (app/(tabs)/index.tsx), the blockchain discovery call
(services/SuiService.ts), and the at-most-once settlement store described by
the specification.

The JavaScript runtime's JSON.parse / JSON.stringify pair is modelled by an
executable parser and printer over a `Json` tree.  Numbers are modelled by
`Int`: the repository's payloads carry integer ids, ranks, points and
timestamps, and non-integer JSON numbers are outside the model (the parser
rejects a fraction or exponent part).  Strings are Lean strings (Unicode
scalar values); a `\u` escape decoding to a lone UTF-16 surrogate is outside
the model.
-/

/-- JSON value tree (integer-number fragment), the model of a JavaScript
JSON value. Object members keep their textual order; a duplicate key is kept,
and lookup takes the last occurrence, as JSON.parse does. -/
inductive Json where
  | null : Json
  | bool (b : Bool) : Json
  | num (n : Int) : Json
  | str (s : String) : Json
  | arr (elems : List Json) : Json
  | obj (members : List (String × Json)) : Json

/-- Decimal digits of a Nat, most significant first. Fuel-structural so that
concrete inputs reduce; `fuel = n + 1` always suffices since `n / 10 < n`. -/
def natToCharsF : Nat → Nat → List Char
  | 0, _ => []
  | fuel + 1, n =>
      if n < 10 then [Char.ofNat (48 + n)]
      else natToCharsF fuel (n / 10) ++ [Char.ofNat (48 + n % 10)]

/-- Decimal digits of a Nat, most significant first. -/
def natToChars (n : Nat) : List Char := natToCharsF (n + 1) n

/-- Decimal rendering of an Int, as JSON.stringify renders an integral
JavaScript number. -/
def intToChars (n : Int) : List Char :=
  if n < 0 then '-' :: natToChars n.natAbs else natToChars n.natAbs

/-- Lower-case hexadecimal digit for a value below 16. -/
def hexDigit (v : Nat) : Char :=
  if v < 10 then Char.ofNat (48 + v) else Char.ofNat (87 + v)

/-- JSON string escaping of one character: quote and backslash get a
backslash escape, control characters a \u00XX escape, everything else is
emitted verbatim. -/
def escChar (c : Char) : List Char :=
  if c = '"' then ['\\', '"']
  else if c = '\\' then ['\\', '\\']
  else if c.toNat < 32 then
    ['\\', 'u', '0', '0', hexDigit (c.toNat / 16 % 16), hexDigit (c.toNat % 16)]
  else [c]

/-- JSON string escaping of a character list. -/
def escChars : List Char → List Char
  | [] => []
  | c :: cs => escChar c ++ escChars cs

mutual

/-- Characters of the compact JSON serialization of a value, as produced by
JSON.stringify with no spacing argument. -/
def strJ : Json → List Char
  | .null => 'n' :: 'u' :: 'l' :: 'l' :: []
  | .bool true => 't' :: 'r' :: 'u' :: 'e' :: []
  | .bool false => 'f' :: 'a' :: 'l' :: 's' :: 'e' :: []
  | .num n => intToChars n
  | .str s => '"' :: (escChars s.toList ++ ['"'])
  | .arr xs => '[' :: (strElems xs ++ [']'])
  | .obj ms => '\x7b' :: (strMembers ms ++ ['\x7d'])

/-- Comma-separated serialization of array elements. -/
def strElems : List Json → List Char
  | [] => []
  | [x] => strJ x
  | x :: y :: t => strJ x ++ ',' :: strElems (y :: t)

/-- Comma-separated serialization of object members. -/
def strMembers : List (String × Json) → List Char
  | [] => []
  | [(k, v)] => '"' :: (escChars k.toList ++ '"' :: ':' :: strJ v)
  | (k, v) :: m :: t =>
      '"' :: (escChars k.toList ++ '"' :: ':' :: strJ v ++ ',' :: strMembers (m :: t))

end

/-- The JSON serialization of a value as a string. -/
def jsonStringify (j : Json) : String := String.mk (strJ j)

/-- JSON whitespace: space, tab, line feed, carriage return. -/
def isWs (c : Char) : Bool :=
  c.toNat = 32 || c.toNat = 9 || c.toNat = 10 || c.toNat = 13

/-- Drop leading JSON whitespace. -/
def skipWs : List Char → List Char
  | [] => []
  | c :: cs => if isWs c then skipWs cs else c :: cs

/-- Whether a list starts with the given character. -/
def headIs : List Char → Char → Bool
  | [], _ => false
  | c :: _, d => c = d

/-- Accumulate decimal digits left to right; stops at the first non-digit. -/
def parseDigitsGo (acc : Nat) : List Char → Nat × List Char
  | [] => (acc, [])
  | c :: cs =>
      if c.isDigit then parseDigitsGo (acc * 10 + (c.toNat - 48)) cs
      else (acc, c :: cs)

/-- Parse a JSON natural-number literal: a single 0, or a nonzero digit
followed by digits (JSON rejects leading zeros, as does JSON.parse). -/
def parseNat : List Char → Option (Nat × List Char)
  | [] => none
  | c :: cs =>
      if c = '0' then some (0, cs)
      else if c.isDigit then some (parseDigitsGo (c.toNat - 48) cs)
      else none

/-- A fraction or exponent part would make the number non-integral; such
numbers are outside the integer fragment modelled here and are rejected. -/
def numTailBad (cs : List Char) : Bool :=
  headIs cs '.' || headIs cs 'e' || headIs cs 'E'

/-- Parse a JSON number literal (integer fragment): optional minus sign and
digits, rejecting a fraction or exponent continuation. -/
def parseNum : List Char → Option (Json × List Char)
  | [] => none
  | c :: cs =>
      if c = '-' then
        match parseNat cs with
        | none => none
        | some (n, rest) =>
            if numTailBad rest then none else some (.num (-(n : Int)), rest)
      else
        match parseNat (c :: cs) with
        | none => none
        | some (n, rest) =>
            if numTailBad rest then none else some (.num (n : Int), rest)

/-- Value of a hexadecimal digit character. -/
def hexVal (c : Char) : Option Nat :=
  if 48 ≤ c.toNat ∧ c.toNat ≤ 57 then some (c.toNat - 48)
  else if 97 ≤ c.toNat ∧ c.toNat ≤ 102 then some (c.toNat - 87)
  else if 65 ≤ c.toNat ∧ c.toNat ≤ 70 then some (c.toNat - 55)
  else none

/-- Single-character JSON escapes. -/
def escDecode (k : Char) : Option Char :=
  if k = '"' then some '"'
  else if k = '\\' then some '\\'
  else if k = '/' then some '/'
  else if k = 'b' then some (Char.ofNat 8)
  else if k = 'f' then some (Char.ofNat 12)
  else if k = 'n' then some (Char.ofNat 10)
  else if k = 'r' then some (Char.ofNat 13)
  else if k = 't' then some (Char.ofNat 9)
  else none

/-- Parse the body of a JSON string after the opening quote, returning the
decoded characters and the input after the closing quote.  An unescaped
control character is rejected, as JSON.parse rejects it. -/
def parseStringBody : List Char → Option (List Char × List Char)
  | [] => none
  | c :: cs =>
      if c = '"' then some ([], cs)
      else if c = '\\' then
        match cs with
        | [] => none
        | k :: cs' =>
            if k = 'u' then
              match cs' with
              | h1 :: h2 :: h3 :: h4 :: cs'' =>
                  match hexVal h1, hexVal h2, hexVal h3, hexVal h4 with
                  | some v1, some v2, some v3, some v4 =>
                      match parseStringBody cs'' with
                      | none => none
                      | some (out, rest) =>
                          some (Char.ofNat (v1 * 4096 + v2 * 256 + v3 * 16 + v4) :: out, rest)
                  | _, _, _, _ => none
              | _ => none
            else
              match escDecode k with
              | none => none
              | some d =>
                  match parseStringBody cs' with
                  | none => none
                  | some (out, rest) => some (d :: out, rest)
      else if c.toNat < 32 then none
      else
        match parseStringBody cs with
        | none => none
        | some (out, rest) => some (c :: out, rest)

mutual

/-- Parse one JSON value.  Fuel-structural: every recursive call into a
subterm decreases the fuel, and `2 * length + 2` fuel always suffices. -/
def parseValue : Nat → List Char → Option (Json × List Char)
  | 0, _ => none
  | fuel + 1, cs =>
      match skipWs cs with
      | [] => none
      | c :: cs' =>
          if c = 'n' then
            match cs' with
            | 'u' :: 'l' :: 'l' :: rest => some (.null, rest)
            | _ => none
          else if c = 't' then
            match cs' with
            | 'r' :: 'u' :: 'e' :: rest => some (.bool true, rest)
            | _ => none
          else if c = 'f' then
            match cs' with
            | 'a' :: 'l' :: 's' :: 'e' :: rest => some (.bool false, rest)
            | _ => none
          else if c = '"' then
            match parseStringBody cs' with
            | none => none
            | some (out, rest) => some (.str (String.mk out), rest)
          else if c = '[' then
            let cs'' := skipWs cs'
            if headIs cs'' ']' then some (.arr [], cs''.tail)
            else
              match parseElems fuel cs'' with
              | none => none
              | some (xs, rest) => some (.arr xs, rest)
          else if c = '\x7b' then
            let cs'' := skipWs cs'
            if headIs cs'' '\x7d' then some (.obj [], cs''.tail)
            else
              match parseMembers fuel cs'' with
              | none => none
              | some (ms, rest) => some (.obj ms, rest)
          else parseNum (c :: cs')

/-- Parse the elements of a nonempty JSON array up to and including the
closing bracket. -/
def parseElems : Nat → List Char → Option (List Json × List Char)
  | 0, _ => none
  | fuel + 1, cs =>
      match parseValue fuel cs with
      | none => none
      | some (j, rest) =>
          let r := skipWs rest
          if headIs r ',' then
            match parseElems fuel r.tail with
            | none => none
            | some (xs, rest') => some (j :: xs, rest')
          else if headIs r ']' then some ([j], r.tail)
          else none

/-- Parse the members of a nonempty JSON object up to and including the
closing brace. -/
def parseMembers : Nat → List Char → Option (List (String × Json) × List Char)
  | 0, _ => none
  | fuel + 1, cs =>
      let c0 := skipWs cs
      if headIs c0 '"' then
        match parseStringBody c0.tail with
        | none => none
        | some (k, rest) =>
            let r1 := skipWs rest
            if headIs r1 ':' then
              match parseValue fuel r1.tail with
              | none => none
              | some (v, rest2) =>
                  let r2 := skipWs rest2
                  if headIs r2 ',' then
                    match parseMembers fuel r2.tail with
                    | none => none
                    | some (ms, rest') => some ((String.mk k, v) :: ms, rest')
                  else if headIs r2 '\x7d' then some ([(String.mk k, v)], r2.tail)
                  else none
            else none
      else none

end

/-- JSON.parse model: parse one value and require that only whitespace
follows it. -/
def jsonParse (s : String) : Option Json :=
  match parseValue (2 * s.toList.length + 2) s.toList with
  | none => none
  | some (j, rest) => if skipWs rest = [] then some j else none

/-- Lookup of an object member, taking the last occurrence of the key as a
JavaScript object built by JSON.parse does. -/
def lookupLast (k : String) : List (String × Json) → Option Json
  | [] => none
  | (k', v) :: t =>
      match lookupLast k t with
      | some r => some r
      | none => if k' = k then some v else none

/-- Property access `j[k]` on a parsed JSON value: a member of an object,
undefined (none) otherwise. -/
def jsGet (j : Json) (k : String) : Option Json :=
  match j with
  | .obj ms => lookupLast k ms
  | _ => none

/-- JavaScript truthiness of a JSON value. -/
def truthy : Json → Bool
  | .null => false
  | .bool b => b
  | .num n => n ≠ 0
  | .str s => s ≠ ""
  | .arr _ => true
  | .obj _ => true

/-- JavaScript truthiness of a possibly-undefined value. -/
def truthyO : Option Json → Bool
  | none => false
  | some j => truthy j

mutual

/-- JavaScript String() coercion of a JSON value: strings unchanged, numbers
in decimal, null as "null", arrays joined by commas with null elements
blank, objects as "[object Object]". -/
def jsToString : Json → String
  | .null => "null"
  | .bool true => "true"
  | .bool false => "false"
  | .num n => String.mk (intToChars n)
  | .str s => s
  | .arr xs => jsToStringElems xs
  | .obj _ => "[object Object]"

/-- Array.prototype.toString element rendering: comma-joined, null blank. -/
def jsToStringElems : List Json → String
  | [] => ""
  | [x] => match x with | .null => "" | _ => jsToString x
  | x :: y :: t =>
      (match x with | .null => "" | _ => jsToString x) ++ "," ++ jsToStringElems (y :: t)

end

/-- String() coercion of a possibly-undefined value, as inside a template
literal. -/
def jsToStringU : Option Json → String
  | none => "undefined"
  | some j => jsToString j

/-- The head-character class of a serialized value: a keyword or string or
bracket opener, a minus sign, or a digit. -/
def headClass (c : Char) : Prop :=
  c.toNat = 110 ∨ c.toNat = 116 ∨ c.toNat = 102 ∨ c.toNat = 34 ∨
  c.toNat = 91 ∨ c.toNat = 123 ∨ c.toNat = 45 ∨ (48 ≤ c.toNat ∧ c.toNat ≤ 57)

/-- Whether a list starts with a decimal digit. -/
def headDigit : List Char → Bool
  | [] => false
  | c :: _ => c.isDigit

/-- Separator or end of input: what may legally follow a serialized value
inside a larger serialization. -/
def sepOkB : List Char → Bool
  | [] => true
  | c :: _ => c = ',' || c = ']' || c = '\x7d'

/-- Head character class of a serialized number: minus sign or digit. -/
def numHead (c : Char) : Prop := c.toNat = 45 ∨ (48 ≤ c.toNat ∧ c.toNat ≤ 57)

/-! ### services/NFCService.ts and services/AlternativeNFCService.ts -/

/-- Whether the needle occurs as a contiguous run of the haystack. -/
def listContainsSub (needle : List Char) : List Char → Bool
  | [] => needle.isEmpty
  | c :: t => needle.isPrefixOf (c :: t) || listContainsSub needle t

/-- String containment, the model of String.prototype.includes. -/
def strContains (s sub : String) : Bool := listContainsSub sub.toList s.toList

/-- Strict UTF-8 decode of a byte list, as decodeURIComponent(escape(...))
inside Ndef.text.decodePayload: it throws on an invalid byte sequence.
Modelled on the ASCII repertoire: a byte at or above 128 (a multi-byte
UTF-8 sequence is outside the model) makes the decode fail. -/
def utf8Strict (bs : List Nat) : Option String :=
  if bs.all (· < 128) then some (String.mk (bs.map Char.ofNat)) else none

/-- Lenient UTF-8 decode of a byte list, as TextDecoder with the default
non-fatal mode: an invalid byte becomes U+FFFD.  Modelled on the ASCII
repertoire: a byte at or above 128 decodes to the replacement character. -/
def decodeUtf8Lenient (bs : List Nat) : String :=
  String.mk (bs.map fun b => if b < 128 then Char.ofNat b else Char.ofNat 65533)

/-- Ndef.text.decodePayload: the first payload byte is the status byte, its
low six bits give the language-code length; the text is the UTF-8 decode of
the bytes after the one-byte header plus language code.  A status byte with
the UTF-16 flag (bit 7) selects UTF-16 decoding, which is outside this
model and mapped to failure. -/
def decodePayloadStd (payload : List Nat) : Option String :=
  let b0 := payload.headD 0
  if b0 < 128 then utf8Strict (payload.drop (1 + b0 % 64)) else none

/-- The acceptance test of the fallback loop of processNFCTag: the decoded
string contains 'treasure_name' or an opening brace. -/
def acceptDecode (s : String) : Bool :=
  strContains s "treasure_name" || strContains s "\x7b"

/-- The UTF-8 fallback loop of processNFCTag: try skip values 0 through 5 in
order and accept the first lenient decode that passes the acceptance
test. -/
def goSkips (payload : List Nat) : List Nat → Option String
  | [] => none
  | k :: ks =>
      if acceptDecode (decodeUtf8Lenient (payload.drop k)) then
        some (decodeUtf8Lenient (payload.drop k))
      else goSkips payload ks

/-- The skip values tried by processNFCTag, in source order. -/
def tryDecodeSkips (payload : List Nat) : Option String :=
  goSkips payload [0, 1, 2, 3, 4, 5]

/-- JavaScript truthiness through String() coercion and reparse:
JSON.parse(String(x)) for the nested nfc_data field. -/
def jsonReparse (j : Json) : Option Json := jsonParse (jsToString j)

/-- createdAt computation of parseTreasureFromPayload:
nfcData.t ? nfcData.t * 1000 : Date.now().  A truthy non-numeric t would be
NaN under JavaScript arithmetic; NaN is outside the numeric model and is
mapped to null. -/
def createdAtOf (t : Option Json) (now : Int) : Json :=
  if truthyO t then
    match t with
    | some (.num n) => .num (n * 1000)
    | _ => .null
  else .num now

/-- The object literal returned by the 'treasure_name'/'nfc_data' branch of
parseTreasureFromPayload.  rarity, requiredRank and rewardPoints are the
fixed literals 2, 1 and 250 of the source.  A field read from a missing
property (undefined in JavaScript) is modelled as null. -/
def mkNFCTreasureJson (data nfcData : Json) (now : Int) : Json :=
  Json.obj
    [("treasureId",
       if truthyO (jsGet nfcData "id") then (jsGet nfcData "id").getD .null
       else .str "unknown"),
     ("name", (jsGet data "treasure_name").getD .null),
     ("description", .str "Treasure discovered via NFC"),
     ("rarity", .num 2),
     ("coordinates",
       .str (jsToStringU (jsGet nfcData "lat") ++ "," ++ jsToStringU (jsGet nfcData "lng"))),
     ("location", (jsGet data "treasure_name").getD .null),
     ("requiredRank", .num 1),
     ("rewardPoints", .num 250),
     ("createdAt", createdAtOf (jsGet nfcData "t") now),
     ("signature", (jsGet nfcData "h").getD .null)]

/-- The 'treasure_name'/'nfc_data' branch shared verbatim by
NFCService.parseTreasureFromPayload and
AlternativeNFCService.parseTreasureFromPayload: parse the payload as JSON,
parse its nfc_data field as JSON again, and build the fixed-metadata
treasure object; any JSON.parse failure is the
'Failed to parse treasure format' error. -/
def parseNamedNFCFormat (now : Int) (s : String) : Except String Json :=
  match jsonParse s with
  | none => .error "Failed to parse treasure format"
  | some data =>
      match jsGet data "nfc_data" with
      | none => .error "Failed to parse treasure format"
      | some nd =>
          match jsonReparse nd with
          | none => .error "Failed to parse treasure format"
          | some nfcData => .ok (mkNFCTreasureJson data nfcData now)

/-- Whether a parsed value's field is the string 'treasure_hunt_qr' under
strict (===) comparison. -/
def isTypeQR : Option Json → Bool
  | some (.str s) => s == "treasure_hunt_qr"
  | _ => false

/-- NFCService.parseTreasureFromPayload: the 'treasure_name'/'nfc_data'
branch keyed on substring containment, then the QR-envelope branch, then
the 'Unrecognized payload format' error.  The result is the parsed
JavaScript object, returned without shape validation. -/
def parseTreasureFromPayload (now : Int) (s : String) : Except String Json :=
  if strContains s "treasure_name" && strContains s "nfc_data" then
    parseNamedNFCFormat now s
  else
    match jsonParse s with
    | some parsed =>
        if isTypeQR (jsGet parsed "type") && truthyO (jsGet parsed "data") then
          .ok ((jsGet parsed "data").getD .null)
        else .error "Unrecognized payload format"
    | none => .error "Unrecognized payload format"

/-- AlternativeNFCService.parseTreasureFromPayload: only the
'treasure_name'/'nfc_data' branch, then the error. -/
def altParseTreasureFromPayload (now : Int) (s : String) : Except String Json :=
  if strContains s "treasure_name" && strContains s "nfc_data" then
    parseNamedNFCFormat now s
  else .error "Unrecognized payload format"

/-- NFCService.processNFCTag decode sequence on the first NDEF record's
payload bytes: try Ndef.text.decodePayload; only when it throws, run the
skip-0-to-5 lenient fallback; if nothing decodes, fail; then parse the
decoded string. -/
def processNFCTag (now : Int) (payload : List Nat) : Except String Json :=
  match decodePayloadStd payload with
  | some s => parseTreasureFromPayload now s
  | none =>
      match tryDecodeSkips payload with
      | some s => parseTreasureFromPayload now s
      | none => .error "Failed to decode NFC payload"

/-- Whether an Except result is a success. -/
def isOkE : Except String Json → Bool
  | .ok _ => true
  | .error _ => false

/-- TreasureNFCData of services/NFCService.ts. Numbers are modelled by Int
(the payloads carry integer ranks, points and epoch milliseconds). -/
structure TreasureNFCData where
  treasureId : String
  name : String
  description : String
  rarity : Int
  coordinates : String
  location : String
  imageUrl : Option String
  requiredRank : Int
  rewardPoints : Int
  createdAt : Int
  signature : Option String

/-- The JSON image of a TreasureNFCData value, in interface field order;
JSON.stringify omits an undefined (none) optional field. -/
def encodeTreasureData (d : TreasureNFCData) : Json :=
  Json.obj
    ([("treasureId", .str d.treasureId), ("name", .str d.name),
      ("description", .str d.description), ("rarity", .num d.rarity),
      ("coordinates", .str d.coordinates), ("location", .str d.location)] ++
     (match d.imageUrl with
      | none => []
      | some u => [("imageUrl", Json.str u)]) ++
     [("requiredRank", .num d.requiredRank), ("rewardPoints", .num d.rewardPoints),
      ("createdAt", .num d.createdAt)] ++
     (match d.signature with
      | none => []
      | some sg => [("signature", Json.str sg)]))

/-- NFCService.generateQRData: JSON.stringify of the QRTreasureData envelope
with type 'treasure_hunt_qr' and version '1.0'. -/
def generateQRData (d : TreasureNFCData) : String :=
  jsonStringify (Json.obj
    [("type", .str "treasure_hunt_qr"), ("version", .str "1.0"),
     ("data", encodeTreasureData d)])

/-- NFCService.parseQRData: JSON.parse the string, require type
'treasure_hunt_qr' and a truthy data field, and return the data field
unvalidated; every failure is surfaced as an 'Invalid QR data' error.  The
engine-specific SyntaxError text of a JSON.parse failure is modelled by a
fixed string. -/
def parseQRData (s : String) : Except String Json :=
  match jsonParse s with
  | none => .error "Invalid QR data: JSON parse error"
  | some parsed =>
      if isTypeQR (jsGet parsed "type") && truthyO (jsGet parsed "data") then
        .ok ((jsGet parsed "data").getD .null)
      else .error "Invalid QR data: Invalid QR treasure data format"

/-! ### store/slices/hunterSlice.ts -/

/-- The rank union of store/slices/hunterSlice.ts:
'Beginner' | 'Explorer' | 'Adventurer' | 'Expert' | 'Master Hunter'. -/
inductive Rank where
  | beginner
  | explorer
  | adventurer
  | expert
  | masterHunter
  deriving DecidableEq

/-- Ordinal position of a rank in the progression. -/
def rankToNat : Rank → Nat
  | .beginner => 0
  | .explorer => 1
  | .adventurer => 2
  | .expert => 3
  | .masterHunter => 4

/-- The rank cascade of the addExperience reducer: level 20 and up is
Master Hunter, 15 Expert, 10 Adventurer, 5 Explorer, otherwise Beginner. -/
def rankOfLevel (level : Nat) : Rank :=
  if level ≥ 20 then .masterHunter
  else if level ≥ 15 then .expert
  else if level ≥ 10 then .adventurer
  else if level ≥ 5 then .explorer
  else .beginner

/-- The stats fields touched by incrementTreasuresFound. -/
structure HunterStatsM where
  treasuresFoundToday : Nat
  treasuresFoundThisWeek : Nat
  treasuresFoundThisMonth : Nat
  deriving DecidableEq

/-- The HunterProfile fields of store/slices/hunterSlice.ts that the
progression reducers read or write (identity and preference fields are
omitted). -/
structure HunterProfileM where
  rank : Rank
  level : Nat
  experience : Nat
  experienceToNext : Nat
  totalTreasuresFound : Nat
  currentStreak : Nat
  longestStreak : Nat
  lastActiveAt : String
  stats : HunterStatsM
  deriving DecidableEq

/-- Loop state of the while loop in the addExperience reducer. -/
structure LevelState where
  experience : Nat
  experienceToNext : Nat
  level : Nat
  rank : Rank
  deriving DecidableEq

/-- The while loop of addExperience: while experience is at least
experienceToNext, deduct it, advance the level, set experienceToNext to
level * 100 and recompute the rank from the new level.  Fuel-structural;
experience + 2 iterations always suffice because after one iteration
experienceToNext is level * 100 with level at least 1. -/
def levelUpLoopF : Nat → LevelState → LevelState
  | 0, st => st
  | fuel + 1, st =>
      if st.experienceToNext ≤ st.experience then
        levelUpLoopF fuel
          { experience := st.experience - st.experienceToNext
            experienceToNext := (st.level + 1) * 100
            level := st.level + 1
            rank := rankOfLevel (st.level + 1) }
      else st

/-- The addExperience reducer: add the payload to experience and run the
level-up loop. -/
def addExperience (amount : Nat) (p : HunterProfileM) : HunterProfileM :=
  let st := levelUpLoopF (p.experience + amount + 2)
    { experience := p.experience + amount, experienceToNext := p.experienceToNext,
      level := p.level, rank := p.rank }
  { p with
    experience := st.experience
    experienceToNext := st.experienceToNext
    level := st.level
    rank := st.rank }

/-- The incrementTreasuresFound reducer: bump totalTreasuresFound, the
streak and the period stats, raise longestStreak when passed, and stamp
lastActiveAt with the current time.  It does not touch rank, level or
experience. -/
def incrementTreasuresFound (now : String) (p : HunterProfileM) : HunterProfileM :=
  { p with
    totalTreasuresFound := p.totalTreasuresFound + 1
    currentStreak := p.currentStreak + 1
    stats :=
      { treasuresFoundToday := p.stats.treasuresFoundToday + 1
        treasuresFoundThisWeek := p.stats.treasuresFoundThisWeek + 1
        treasuresFoundThisMonth := p.stats.treasuresFoundThisMonth + 1 }
    longestStreak :=
      if p.longestStreak < p.currentStreak + 1 then p.currentStreak + 1
      else p.longestStreak
    lastActiveAt := now }

/-- The resetStreak reducer: currentStreak becomes 0. -/
def resetStreak (p : HunterProfileM) : HunterProfileM :=
  { p with currentStreak := 0 }

/-- toLowerCase over the characters of a string. -/
def strToLower (s : String) : String := String.mk (s.toList.map Char.toLower)

/-- getNextRankRequirement of hooks/useProfile.ts (utils/helpers section);
Math.max(0, k - n) is Nat subtraction. -/
def getNextRankRequirement (rank : String) (currentTreasures : Nat) : String × Nat :=
  let r := strToLower rank
  if r = "beginner" then ("Explorer", 5 - currentTreasures)
  else if r = "explorer" then ("Hunter", 20 - currentTreasures)
  else if r = "hunter" then ("Master", 50 - currentTreasures)
  else if r = "master" then ("Max Level", 0)
  else ("Explorer", 5)

/-- The spec's four-rank ordinal. -/
inductive SpecRank where
  | beginner
  | explorer
  | hunter
  | master
  deriving DecidableEq

/-- Modelled from the spec: the pure rank function of totalTreasuresFound
with thresholds 5, 20 and 50, used to state the claims that compare the
code against the spec's rank rule. -/
def specRankOfTreasures (n : Nat) : SpecRank :=
  if n ≥ 50 then .master
  else if n ≥ 20 then .hunter
  else if n ≥ 5 then .explorer
  else .beginner

/-! ### app/(tabs)/index.tsx: proximity guard, and the haversine helper of
hooks/useProfile.ts -/

/-- Outcome of navigateToTreasure: the 'Too Far Away' alert, or navigation
to the hunt screen with the treasure id. -/
inductive NavOutcome where
  | tooFarAlert
  | huntRoute (treasureId : String)
  deriving DecidableEq

/-- The fields of NearbyTreasure read by navigateToTreasure.  The distance
is the server-reported meters figure; it is compared unrounded. -/
structure NearbyTreasureM where
  treasureId : String
  distance : ℚ

/-- navigateToTreasure of app/(tabs)/index.tsx: alert and return when
distance exceeds 5000 meters, otherwise route to the hunt screen. -/
def navigateToTreasure (t : NearbyTreasureM) : NavOutcome :=
  if t.distance > 5000 then .tooFarAlert else .huntRoute t.treasureId

/-- Math.atan2 of the JavaScript runtime over the reals. -/
noncomputable def atan2 (y x : ℝ) : ℝ :=
  if 0 < x then Real.arctan (y / x)
  else if x = 0 then
    (if 0 < y then Real.pi / 2 else if y < 0 then -(Real.pi / 2) else 0)
  else
    (if 0 ≤ y then Real.arctan (y / x) + Real.pi else Real.arctan (y / x) - Real.pi)

/-- calculateDistance of hooks/useProfile.ts: the haversine formula with
the mean Earth radius 6371e3 meters, transcribed over the reals (the
source computes in IEEE doubles). -/
noncomputable def calculateDistance (lat1 lng1 lat2 lng2 : ℝ) : ℝ :=
  let R : ℝ := 6371000
  let f1 := lat1 * Real.pi / 180
  let f2 := lat2 * Real.pi / 180
  let df := (lat2 - lat1) * Real.pi / 180
  let dl := (lng2 - lng1) * Real.pi / 180
  let a := Real.sin (df / 2) * Real.sin (df / 2) +
    Real.cos f1 * Real.cos f2 * Real.sin (dl / 2) * Real.sin (dl / 2)
  let c := 2 * atan2 (Real.sqrt a) (Real.sqrt (1 - a))
  R * c

/-- Follows the spec's words, for comparison with navigateToTreasure: the
Proximity Verifier's policy parameter maxDistanceMeters defaults to 100
meters. -/
def specMaxDistanceMeters : ℚ := 100

/-- Follows the spec's words, for comparison with navigateToTreasure: the
Proximity Verifier accepts a fix exactly when its distance in meters is at
most maxDistanceMeters, and rejects it with TooFar beyond that. -/
def specProximityAccepts (distanceMeters maxDistanceMeters : ℚ) : Bool :=
  distanceMeters ≤ maxDistanceMeters

/-! ### services/SuiService.ts: findTreasure -/

/-- Result data of a successful signAndExecuteTransaction call that
findTreasure inspects. -/
structure ExecResult where
  statusSuccess : Bool
  statusError : Option String
  createdNFTObjectId : Option String
  digest : String

/-- The environment a findTreasure run observes: the wallet balance in SUI,
the registry and profile lookups (an error value is the message their
failure throws), and the ledger execution outcome (an error value is the
message signAndExecuteTransaction rejects with). -/
structure FindTreasureEnv where
  balanceSui : ℚ
  registry : Except String String
  profile : Except String String
  execOutcome : Except String ExecResult

/-- The successful result of findTreasure. -/
structure FindOk where
  transactionDigest : String
  nftObjectId : String
  hunterProfileUpdated : Bool
  deriving DecidableEq

/-- One findTreasure run: its result, whether a transaction was submitted
to the ledger, and whether the local found-treasures cache was written. -/
structure FindTreasureRun where
  result : Except String FindOk
  submitted : Bool
  storedLocally : Bool

/-- The catch block of findTreasure: map the contract abort markers to
their specific user-facing messages, and rethrow anything else. -/
def mapFindError (msg : String) : String :=
  if strContains msg "E_TREASURE_ALREADY_FOUND" then
    "This treasure has already been found by someone else!"
  else if strContains msg "E_INVALID_LOCATION" then
    "Location verification failed. Make sure you are at the correct location."
  else if strContains msg "E_INSUFFICIENT_RANK" then
    "Your hunter rank is too low for this treasure. Keep hunting to level up!"
  else if strContains msg "E_INVALID_TREASURE_ID" then
    "Invalid treasure ID. This treasure may not exist."
  else msg

/-- The balance guard message of findTreasure. -/
def insufficientFundsMsg : String :=
  "Insufficient SUI balance for transaction. Need at least 0.05 SUI for gas."

/-- SuiService.findTreasure: check the gas balance before anything else,
resolve the registry and profile, submit the single mint transaction,
check its status, extract the minted NFT object, store the treasure
locally, and return; every thrown error passes through the catch block's
message mapping.  The wallet is taken as initialized. -/
def findTreasure (env : FindTreasureEnv) : FindTreasureRun :=
  if env.balanceSui < 5 / 100 then
    { result := .error (mapFindError insufficientFundsMsg)
      submitted := false
      storedLocally := false }
  else
    match env.registry with
    | .error e =>
        { result := .error (mapFindError e), submitted := false, storedLocally := false }
    | .ok _ =>
        match env.profile with
        | .error e =>
            { result := .error (mapFindError e), submitted := false, storedLocally := false }
        | .ok _ =>
            match env.execOutcome with
            | .error e =>
                { result := .error (mapFindError e), submitted := true, storedLocally := false }
            | .ok r =>
                if r.statusSuccess then
                  match r.createdNFTObjectId with
                  | none =>
                      { result := .error (mapFindError
                          "Failed to extract NFT object ID from transaction result")
                        submitted := true
                        storedLocally := false }
                  | some nftId =>
                      { result := .ok
                          { transactionDigest := r.digest
                            nftObjectId := nftId
                            hunterProfileUpdated := true }
                        submitted := true
                        storedLocally := true }
                else
                  { result := .error (mapFindError ("Transaction failed: " ++
                      r.statusError.getD "Unknown transaction error"))
                    submitted := true
                    storedLocally := false }

/-- The five terminal error kinds of the discovery call that the claims
compare. -/
inductive TerminalKind where
  | tooFar
  | alreadyClaimed
  | rankTooLow
  | invalidTreasure
  | insufficientFunds
  deriving DecidableEq

/-- The message findTreasure surfaces for each terminal kind: the four
contract abort markers through the catch mapping, and the balance guard
message. -/
def surfaceError : TerminalKind → String
  | .tooFar => mapFindError "E_INVALID_LOCATION"
  | .alreadyClaimed => mapFindError "E_TREASURE_ALREADY_FOUND"
  | .rankTooLow => mapFindError "E_INSUFFICIENT_RANK"
  | .invalidTreasure => mapFindError "E_INVALID_TREASURE_ID"
  | .insufficientFunds => mapFindError insufficientFundsMsg

/-! ### The at-most-once settlement store (modelled from the spec) -/

/-- Outcome of one discovery commit. -/
inductive DiscoverOutcome where
  | settled
  | alreadyClaimed
  deriving DecidableEq

/-- Modelled from the spec: the repository's backing store (the Move
contract's find_treasure and the backend behind it) is not part of src/;
per spec sections 4.4 and 5, the store enforces a uniqueness constraint on
(treasureId, status = Settled), so a commit atomically settles the slot for
the first claimant and rejects every later one.  The slot holds the hunter
that settled the treasure, if any. -/
def commitDiscovery (slot : Option String) (hunterId : String) :
    Option String × DiscoverOutcome :=
  match slot with
  | some h => (some h, .alreadyClaimed)
  | none => (some hunterId, .settled)

/-- Modelled from the spec: N concurrent discover calls for one treasureId
interleave at the store's atomic commit; an interleaving is a sequence of
commits, one per claimant, in some order. -/
def runDiscoverAll : List String → Option String → Option String × List DiscoverOutcome
  | [], slot => (slot, [])
  | h :: t, slot =>
      let r := commitDiscovery slot h
      let rs := runDiscoverAll t r.1
      (rs.1, r.2 :: rs.2)

/-! ### Outcome counters and concrete fixtures for the claim theorems -/

/-- Number of settled outcomes. -/
def countSettled : List DiscoverOutcome → Nat
  | [] => 0
  | .settled :: t => countSettled t + 1
  | .alreadyClaimed :: t => countSettled t

/-- Number of already-claimed outcomes. -/
def countClaimed : List DiscoverOutcome → Nat
  | [] => 0
  | .settled :: t => countClaimed t
  | .alreadyClaimed :: t => countClaimed t + 1

/-- The hunter-profile fixture for the C2 counterexample: a Beginner at 4
treasures found, exactly the spec's 4-to-5 promotion scenario. -/
def c2profile : HunterProfileM :=
  { rank := .beginner
    level := 1
    experience := 0
    experienceToNext := 100
    totalTreasuresFound := 4
    currentStreak := 0
    longestStreak := 0
    lastActiveAt := "2024-01-01T00:00:00.000Z"
    stats := ⟨0, 0, 0⟩ }

/-- The hunter-profile fixture for the C5 counterexample. -/
def c5profile : HunterProfileM :=
  { rank := .beginner
    level := 3
    experience := 10
    experienceToNext := 100
    totalTreasuresFound := 4
    currentStreak := 2
    longestStreak := 6
    lastActiveAt := "2024-01-01T00:00:00.000Z"
    stats := ⟨0, 1, 2⟩ }

/-- A concrete treasure payload used to witness the QR round trip. -/
def sampleTreasure : TreasureNFCData :=
  { treasureId := "t1"
    name := "Temple"
    description := "A hidden treasure"
    rarity := 2
    coordinates := "21.0285,105.8542"
    location := "Hanoi"
    imageUrl := some "https://img.example/t1.png"
    requiredRank := 1
    rewardPoints := 250
    createdAt := 1700000000000
    signature := none }

/-- The data object of the C6 payloads. -/
def c6okJson : Json := Json.obj [("treasureId", Json.str "t1")]

/-- A QR payload with the correct type tag but version '9.9', which no part
of the repository supports. -/
def c6payload : String :=
  jsonStringify (Json.obj
    [("type", Json.str "treasure_hunt_qr"), ("version", Json.str "9.9"),
     ("data", c6okJson)])

/-- The inner JSON claim text used by the C3 payloads:
a treasure_name/nfc_data document whose nfc_data is a nested JSON string. -/
def c3json : String :=
  "\x7b\"treasure_name\":\"X\",\"nfc_data\":\"\x7b\\\"id\\\":\\\"t1\\\"\x7d\"\x7d"

/-- An NFC payload written with the 3-byte-skip convention (status byte plus
2-character language code) whose status byte is corrupted to 0x05, so the
standard text decode drops 6 bytes instead of 3 and yields a string that is
not parseable as JSON. -/
def c3payload : List Nat := 5 :: 101 :: 110 :: c3json.toList.map Char.toNat

/-- A payload with a correct 3-byte header but an invalid UTF-8 byte after
it, so the standard strict decode throws (as decodeURIComponent does on a
lone 0xFF byte) and the skip fallback runs. -/
def c3payloadB : List Nat := 2 :: 101 :: 110 :: 255 :: c3json.toList.map Char.toNat

/-- The C10 witness payload: a treasure_name/nfc_data document that itself
carries contradicting rarity, rank and reward values. -/
def c10payload : String :=
  "\x7b\"treasure_name\":\"Hanoi Temple\",\"rarity\":9,\"nfc_data\":\"\x7b\\\"id\\\":\\\"t9\\\",\\\"rarity\\\":9,\\\"rank\\\":4,\\\"reward\\\":5\x7d\"\x7d"

/-- The parsed result of the C10 witness payload. -/
def c10result : Json :=
  match parseTreasureFromPayload 0 c10payload with
  | .ok t => t
  | .error _ => .null

/-! ### Round-trip lemmas: the parser inverts the printer -/

theorem char_eq_of_toNat {a b : Char} (h : a.toNat = b.toNat) : a = b := by
  have ha := Char.ofNat_toNat a
  rw [h, Char.ofNat_toNat] at ha
  exact ha.symm

theorem char_ne_of_toNat {a b : Char} (h : a.toNat ≠ b.toNat) : a ≠ b :=
  fun he => h (he ▸ rfl)

theorem char_toNat_ofNat_small : ∀ n, n < 128 → (Char.ofNat n).toNat = n := by decide

theorem isWs_eq_false {c : Char}
    (h : ¬(c.toNat = 32 ∨ c.toNat = 9 ∨ c.toNat = 10 ∨ c.toNat = 13)) : isWs c = false := by
  simp only [isWs, Bool.or_eq_false_iff, decide_eq_false_iff_not]
  omega

theorem skipWs_cons {c : Char} {cs : List Char} (h : isWs c = false) :
    skipWs (c :: cs) = c :: cs := by
  simp [skipWs, h]

/-- Head character facts for decimal digit characters. -/
theorem digit_char_facts : ∀ d, d < 10 →
    (Char.ofNat (48 + d)).toNat = 48 + d ∧ (Char.ofNat (48 + d)).isDigit = true := by decide

theorem natToCharsF_head : ∀ fuel n, n < fuel →
    ∃ d t, natToCharsF fuel n = Char.ofNat (48 + d) :: t ∧ d < 10 ∧ (0 < n → d ≠ 0) := by
  intro fuel
  induction fuel with
  | zero => omega
  | succ f ih =>
      intro n hn
      by_cases h10 : n < 10
      · exact ⟨n, [], by simp [natToCharsF, h10], h10, by omega⟩
      · obtain ⟨d, t, ht, hd, hpos⟩ := ih (n / 10) (by omega)
        refine ⟨d, t ++ [Char.ofNat (48 + n % 10)], ?_, hd, fun _ => hpos (by omega)⟩
        simp [natToCharsF, h10, ht]

theorem natToChars_head (n : Nat) :
    ∃ d t, natToChars n = Char.ofNat (48 + d) :: t ∧ d < 10 ∧ (0 < n → d ≠ 0) :=
  natToCharsF_head (n + 1) n (by omega)

/-- Digit accumulation over the digits of `n` continues with `n` folded in. -/
theorem parseDigitsGo_natToCharsF : ∀ fuel n, n < fuel → ∀ acc rest,
    parseDigitsGo acc (natToCharsF fuel n ++ rest) =
      parseDigitsGo (acc * 10 ^ (natToCharsF fuel n).length + n) rest := by
  intro fuel
  induction fuel with
  | zero => omega
  | succ f ih =>
      intro n hn acc rest
      by_cases h10 : n < 10
      · have hd := digit_char_facts n h10
        simp [natToCharsF, h10, parseDigitsGo, hd.1, hd.2]
      · have hdiv : n / 10 < f := by omega
        have hd := digit_char_facts (n % 10) (by omega)
        simp only [natToCharsF, h10, if_false, List.append_assoc, List.cons_append,
          List.nil_append]
        rw [ih (n / 10) hdiv acc (Char.ofNat (48 + n % 10) :: rest)]
        simp only [parseDigitsGo, hd.1, hd.2, if_true, List.length_append,
          List.length_cons, List.length_nil]
        congr 1
        rw [show (natToCharsF f (n / 10)).length + (0 + 1) =
          (natToCharsF f (n / 10)).length + 1 by omega]
        rw [pow_succ, ← Nat.mul_assoc]
        generalize acc * 10 ^ (natToCharsF f (n / 10)).length = M
        omega

theorem parseDigitsGo_stop (acc : Nat) (rest : List Char) (h : headDigit rest = false) :
    parseDigitsGo acc rest = (acc, rest) := by
  cases rest with
  | nil => rfl
  | cons c t => simp_all [parseDigitsGo, headDigit]

theorem parseNat_natToChars (n : Nat) (rest : List Char) (h : headDigit rest = false) :
    parseNat (natToChars n ++ rest) = some (n, rest) := by
  by_cases h0 : n = 0
  · subst h0
    show parseNat ('0' :: rest) = some (0, rest)
    simp [parseNat]
  · obtain ⟨d, t, ht, hd, hdz⟩ := natToChars_head n
    have hdz : d ≠ 0 := hdz (by omega)
    have hfacts := digit_char_facts d hd
    have hne0 : Char.ofNat (48 + d) ≠ '0' := by
      apply char_ne_of_toNat
      rw [hfacts.1]
      show 48 + d ≠ 48
      omega
    have hgo : parseDigitsGo 0 (natToChars n ++ rest) = (n, rest) := by
      have := parseDigitsGo_natToCharsF (n + 1) n (by omega) 0 rest
      rw [natToChars] at *
      rw [this, Nat.zero_mul, Nat.zero_add, parseDigitsGo_stop n rest h]
    rw [ht] at hgo ⊢
    simp only [List.cons_append] at hgo ⊢
    simp only [parseNat, hne0, if_false, hfacts.2, if_true, hfacts.1]
    rw [show parseDigitsGo (48 + d - 48) (t ++ rest) = parseDigitsGo (0 * 10 + (48 + d - 48)) (t ++ rest) by norm_num]
    rw [show parseDigitsGo (0 * 10 + (48 + d - 48)) (t ++ rest) =
      parseDigitsGo 0 (Char.ofNat (48 + d) :: (t ++ rest)) by
        simp [parseDigitsGo, hfacts.1, hfacts.2]]
    rw [hgo]

theorem sepOk_not_digit {rest : List Char} (h : sepOkB rest = true) :
    headDigit rest = false := by
  cases rest with
  | nil => rfl
  | cons c t =>
      simp only [sepOkB, Bool.or_eq_true, decide_eq_true_eq] at h
      rcases h with (h | h) | h <;> subst h <;> simp [headDigit]

theorem sepOk_numTail {rest : List Char} (h : sepOkB rest = true) :
    numTailBad rest = false := by
  cases rest with
  | nil => rfl
  | cons c t =>
      simp only [sepOkB, Bool.or_eq_true, decide_eq_true_eq] at h
      rcases h with (h | h) | h <;> subst h <;> simp [numTailBad, headIs]

theorem parseNum_intToChars (n : Int) (rest : List Char) (hsep : sepOkB rest = true) :
    parseNum (intToChars n ++ rest) = some (.num n, rest) := by
  have hnat := parseNat_natToChars n.natAbs rest (sepOk_not_digit hsep)
  by_cases hneg : n < 0
  · have hval : (-(n.natAbs : Int)) = n := by omega
    simp only [intToChars, hneg, if_true, List.cons_append]
    simp only [parseNum, if_pos rfl, hnat, hval]
    simp [sepOk_numTail hsep]
  · have hval : ((n.natAbs : Int)) = n := by omega
    obtain ⟨d, t, ht, hd, _⟩ := natToChars_head n.natAbs
    have hfacts := digit_char_facts d hd
    have hnm : Char.ofNat (48 + d) ≠ '-' := by
      apply char_ne_of_toNat
      rw [hfacts.1]
      show 48 + d ≠ 45
      omega
    simp only [intToChars, hneg, if_false]
    rw [ht]
    simp only [List.cons_append]
    simp only [parseNum, hnm, if_false]
    rw [← List.cons_append, ← ht, hnat]
    simp [sepOk_numTail hsep, hval]

theorem hexVal_hexDigit : ∀ v, v < 16 → hexVal (hexDigit v) = some v := by decide

theorem parseStringBody_esc : ∀ (s rest : List Char),
    parseStringBody (escChars s ++ '"' :: rest) = some (s, rest) := by
  intro s
  induction s with
  | nil =>
      intro rest
      rw [show escChars [] ++ '"' :: rest = '"' :: rest from rfl]
      rw [parseStringBody.eq_def]
      simp
  | cons c t ih =>
      intro rest
      rw [show escChars (c :: t) ++ '"' :: rest = escChar c ++ (escChars t ++ '"' :: rest) by
        simp [escChars]]
      by_cases hq : c = '"'
      · subst hq
        rw [show escChar '"' = ['\\', '"'] from rfl]
        rw [List.cons_append, List.cons_append, List.nil_append]
        rw [parseStringBody.eq_def]
        simp [escDecode, ih]
      · by_cases hb : c = '\\'
        · subst hb
          rw [show escChar '\\' = ['\\', '\\'] from rfl]
          rw [List.cons_append, List.cons_append, List.nil_append]
          rw [parseStringBody.eq_def]
          simp [escDecode, ih]
        · by_cases hc : c.toNat < 32
          · have h1 := hexVal_hexDigit (c.toNat / 16 % 16) (by omega)
            have h2 := hexVal_hexDigit (c.toNat % 16) (by omega)
            have hz : hexVal '0' = some 0 := by decide
            rw [show escChar c = ['\\', 'u', '0', '0', hexDigit (c.toNat / 16 % 16),
              hexDigit (c.toNat % 16)] by simp [escChar, hq, hb, hc]]
            simp only [List.cons_append, List.nil_append]
            rw [parseStringBody.eq_def]
            simp only [hz, h1, h2, ih]
            norm_num
            have hv : c.toNat / 16 % 16 * 16 + c.toNat % 16 = c.toNat := by omega
            rw [hv, Char.ofNat_toNat]
            simp
          · rw [show escChar c = [c] by simp [escChar, hq, hb, hc]]
            rw [List.cons_append, List.nil_append]
            rw [parseStringBody.eq_def]
            simp [hq, hb, hc, ih]

theorem string_mk_toList (s : String) : String.mk s.toList = s := rfl

theorem intToChars_head (n : Int) : ∃ c t, intToChars n = c :: t ∧ numHead c := by
  by_cases hneg : n < 0
  · exact ⟨'-', natToChars n.natAbs, by simp [intToChars, hneg], Or.inl (by decide)⟩
  · obtain ⟨d, t, ht, hd, _⟩ := natToChars_head n.natAbs
    have hfacts := digit_char_facts d hd
    refine ⟨Char.ofNat (48 + d), t, by simp [intToChars, hneg, ht], Or.inr ?_⟩
    rw [hfacts.1]
    omega

theorem numHead_facts {c : Char} (h : numHead c) :
    isWs c = false ∧ ¬c = 'n' ∧ ¬c = 't' ∧ ¬c = 'f' ∧ ¬c = '"' ∧ ¬c = '[' ∧ ¬c = '\x7b' := by
  unfold numHead at h
  refine ⟨isWs_eq_false (by omega), char_ne_of_toNat (by show c.toNat ≠ 110; omega),
    char_ne_of_toNat (by show c.toNat ≠ 116; omega),
    char_ne_of_toNat (by show c.toNat ≠ 102; omega),
    char_ne_of_toNat (by show c.toNat ≠ 34; omega),
    char_ne_of_toNat (by show c.toNat ≠ 91; omega),
    char_ne_of_toNat (by show c.toNat ≠ 123; omega)⟩

theorem headClass_facts {c : Char} (h : headClass c) :
    isWs c = false ∧ ¬c = ']' ∧ ¬c = '\x7d' := by
  unfold headClass at h
  exact ⟨isWs_eq_false (by omega),
    char_ne_of_toNat (by show c.toNat ≠ 93; omega),
    char_ne_of_toNat (by show c.toNat ≠ 125; omega)⟩

theorem strJ_head (j : Json) : ∃ c t, strJ j = c :: t ∧ headClass c := by
  cases j with
  | null => exact ⟨'n', _, rfl, Or.inl (by decide)⟩
  | bool b =>
      cases b with
      | true => exact ⟨'t', _, rfl, Or.inr (Or.inl (by decide))⟩
      | false => exact ⟨'f', _, rfl, Or.inr (Or.inr (Or.inl (by decide)))⟩
  | num n =>
      obtain ⟨c, t, ht, hnum⟩ := intToChars_head n
      refine ⟨c, t, by simp [strJ, ht], ?_⟩
      unfold headClass
      unfold numHead at hnum
      omega
  | str s => exact ⟨'"', _, rfl, by unfold headClass; right; right; right; left; decide⟩
  | arr xs => exact ⟨'[', _, rfl, by unfold headClass; right; right; right; right; left; decide⟩
  | obj ms => exact ⟨'\x7b', _, rfl, by
      unfold headClass; right; right; right; right; right; left; decide⟩

theorem strElems_head (x : Json) (xs : List Json) :
    ∃ c t, strElems (x :: xs) = c :: t ∧ headClass c := by
  obtain ⟨c, t, ht, hcls⟩ := strJ_head x
  cases xs with
  | nil => exact ⟨c, t, by simp [strElems, ht], hcls⟩
  | cons y ys => exact ⟨c, t ++ ',' :: strElems (y :: ys), by simp [strElems, ht], hcls⟩

theorem parseValue_str_eq (f : Nat) (X : List Char) :
    parseValue (f + 1) ('"' :: X) =
      (match parseStringBody X with
       | none => none
       | some (out, rest) => some (.str (String.mk out), rest)) := rfl

theorem parseValue_arr_eq (f : Nat) (X : List Char) :
    parseValue (f + 1) ('[' :: X) =
      (if headIs (skipWs X) ']' then some (.arr [], (skipWs X).tail)
       else
         match parseElems f (skipWs X) with
         | none => none
         | some (xs, rest) => some (.arr xs, rest)) := rfl

theorem parseValue_obj_eq (f : Nat) (X : List Char) :
    parseValue (f + 1) ('\x7b' :: X) =
      (if headIs (skipWs X) '\x7d' then some (.obj [], (skipWs X).tail)
       else
         match parseMembers f (skipWs X) with
         | none => none
         | some (ms, rest) => some (.obj ms, rest)) := rfl

theorem parseElems_succ_eq (f : Nat) (cs : List Char) :
    parseElems (f + 1) cs =
      (match parseValue f cs with
       | none => none
       | some (j, rest) =>
           if headIs (skipWs rest) ',' then
             match parseElems f (skipWs rest).tail with
             | none => none
             | some (xs, rest') => some (j :: xs, rest')
           else if headIs (skipWs rest) ']' then some ([j], (skipWs rest).tail)
           else none) := rfl

theorem parseMembers_succ_eq (f : Nat) (cs : List Char) :
    parseMembers (f + 1) cs =
      (if headIs (skipWs cs) '"' then
        match parseStringBody (skipWs cs).tail with
        | none => none
        | some (k, rest) =>
            if headIs (skipWs rest) ':' then
              match parseValue f (skipWs rest).tail with
              | none => none
              | some (v, rest2) =>
                  if headIs (skipWs rest2) ',' then
                    match parseMembers f (skipWs rest2).tail with
                    | none => none
                    | some (ms, rest') => some ((String.mk k, v) :: ms, rest')
                  else if headIs (skipWs rest2) '\x7d' then
                    some ([(String.mk k, v)], (skipWs rest2).tail)
                  else none
            else none
      else none) := rfl

/-- A plain head character (minus sign or digit) sends the value parser to
the number parser. -/
theorem parseValue_plain (f : Nat) (c : Char) (X : List Char) (h : numHead c) :
    parseValue (f + 1) (c :: X) = parseNum (c :: X) := by
  obtain ⟨hws, h1, h2, h3, h4, h5, h6⟩ := numHead_facts h
  rw [parseValue.eq_def]
  simp only [skipWs, hws, Bool.false_eq_true, if_false]
  simp [h1, h2, h3, h4, h5, h6]

/-- Round trip of the fuel-indexed parsers over the printer: with enough
fuel, parsing a printed value consumes exactly the printed characters. -/
theorem parseRoundTripAux : ∀ f : Nat,
    (∀ j rest, 2 * (strJ j).length + 1 ≤ f → sepOkB rest = true →
      parseValue f (strJ j ++ rest) = some (j, rest)) ∧
    (∀ xs rest, xs ≠ [] → 2 * (strElems xs).length + 2 ≤ f → sepOkB rest = true →
      parseElems f (strElems xs ++ ']' :: rest) = some (xs, rest)) ∧
    (∀ ms rest, ms ≠ [] → 2 * (strMembers ms).length + 2 ≤ f → sepOkB rest = true →
      parseMembers f (strMembers ms ++ '\x7d' :: rest) = some (ms, rest)) := by
  intro f
  induction f using Nat.strong_induction_on with
  | _ f IH =>
  refine ⟨?_, ?_, ?_⟩
  · intro j rest hf hsep
    cases f with
    | zero => omega
    | succ f' =>
        cases j with
        | null => rfl
        | bool b => cases b <;> rfl
        | num n =>
            obtain ⟨c, t, hct, hnum⟩ := intToChars_head n
            have hstep : parseValue (f' + 1) (strJ (.num n) ++ rest) =
                parseNum (strJ (.num n) ++ rest) := by
              rw [show strJ (.num n) = intToChars n from rfl, hct, List.cons_append]
              exact parseValue_plain f' c (t ++ rest) hnum
            rw [hstep, show strJ (.num n) = intToChars n from rfl]
            exact parseNum_intToChars n rest hsep
        | str s =>
            rw [show strJ (.str s) ++ rest =
              '"' :: (escChars s.toList ++ '"' :: rest) by simp [strJ]]
            rw [parseValue_str_eq, parseStringBody_esc s.toList rest]
            show some (Json.str (String.mk s.toList), rest) = some (Json.str s, rest)
            rw [string_mk_toList]
        | arr xs =>
            cases xs with
            | nil => rfl
            | cons x xs' =>
                rw [show strJ (.arr (x :: xs')) ++ rest =
                  '[' :: (strElems (x :: xs') ++ ']' :: rest) by simp [strJ]]
                rw [parseValue_arr_eq]
                obtain ⟨c, t, hct, hcls⟩ := strElems_head x xs'
                obtain ⟨hws, hne1, hne2⟩ := headClass_facts hcls
                rw [hct, List.cons_append, skipWs_cons hws]
                rw [show headIs (c :: (t ++ ']' :: rest)) ']' = false by
                  simp [headIs, hne1]]
                simp only [Bool.false_eq_true, if_false]
                rw [show (c :: (t ++ ']' :: rest)) = strElems (x :: xs') ++ ']' :: rest by
                  rw [hct]; simp]
                have harith : 2 * (strElems (x :: xs')).length + 2 ≤ f' := by
                  simp only [strJ, List.length_cons, List.length_append,
                    List.length_nil] at hf
                  omega
                rw [(IH f' (by omega)).2.1 (x :: xs') rest (by simp) harith hsep]
        | obj ms =>
            cases ms with
            | nil => rfl
            | cons m ms' =>
                rw [show strJ (.obj (m :: ms')) ++ rest =
                  '\x7b' :: (strMembers (m :: ms') ++ '\x7d' :: rest) by simp [strJ]]
                rw [parseValue_obj_eq]
                have hmh : ∃ Y, strMembers (m :: ms') = '"' :: Y := by
                  obtain ⟨k, v⟩ := m
                  cases ms' with
                  | nil => exact ⟨_, rfl⟩
                  | cons m2 t2 => exact ⟨_, rfl⟩
                obtain ⟨Y, hY⟩ := hmh
                rw [hY, List.cons_append, skipWs_cons (by decide)]
                rw [show headIs ('"' :: (Y ++ '\x7d' :: rest)) '\x7d' = false from rfl]
                simp only [Bool.false_eq_true, if_false]
                rw [show ('"' : Char) :: (Y ++ '\x7d' :: rest) =
                  strMembers (m :: ms') ++ '\x7d' :: rest by rw [hY]; simp]
                have harith : 2 * (strMembers (m :: ms')).length + 2 ≤ f' := by
                  simp only [strJ, List.length_cons, List.length_append,
                    List.length_nil] at hf
                  omega
                rw [(IH f' (by omega)).2.2 (m :: ms') rest (by simp) harith hsep]
  · intro xs rest hne hf hsep
    cases f with
    | zero => omega
    | succ f' =>
        cases xs with
        | nil => exact absurd rfl hne
        | cons x xs' =>
            cases xs' with
            | nil =>
                rw [show strElems [x] ++ ']' :: rest = strJ x ++ ']' :: rest by
                  simp [strElems]]
                rw [parseElems_succ_eq]
                have harith : 2 * (strJ x).length + 1 ≤ f' := by
                  simp only [strElems] at hf
                  omega
                rw [(IH f' (by omega)).1 x (']' :: rest) harith rfl]
                rfl
            | cons y t =>
                rw [show strElems (x :: y :: t) ++ ']' :: rest =
                  strJ x ++ ',' :: (strElems (y :: t) ++ ']' :: rest) by
                    simp [strElems]]
                rw [parseElems_succ_eq]
                have harith : 2 * (strJ x).length + 1 ≤ f' := by
                  simp only [strElems, List.length_append, List.length_cons] at hf
                  omega
                rw [(IH f' (by omega)).1 x (',' :: (strElems (y :: t) ++ ']' :: rest))
                  harith rfl]
                show (match parseElems f' (strElems (y :: t) ++ ']' :: rest) with
                  | none => none
                  | some (xs, rest') => some (x :: xs, rest')) = some (x :: y :: t, rest)
                have harith2 : 2 * (strElems (y :: t)).length + 2 ≤ f' := by
                  simp only [strElems, List.length_append, List.length_cons] at hf
                  omega
                rw [(IH f' (by omega)).2.1 (y :: t) rest (by simp) harith2 hsep]
  · intro ms rest hne hf hsep
    cases f with
    | zero => omega
    | succ f' =>
        cases ms with
        | nil => exact absurd rfl hne
        | cons m ms' =>
            obtain ⟨k, v⟩ := m
            cases ms' with
            | nil =>
                rw [show strMembers [(k, v)] ++ '\x7d' :: rest =
                  '"' :: (escChars k.toList ++ '"' :: (':' :: (strJ v ++ '\x7d' :: rest))) by
                    simp [strMembers]]
                rw [parseMembers_succ_eq]
                show (match parseStringBody
                    (escChars k.toList ++ '"' :: (':' :: (strJ v ++ '\x7d' :: rest))) with
                  | none => none
                  | some (key, rest1) =>
                      if headIs (skipWs rest1) ':' then
                        match parseValue f' (skipWs rest1).tail with
                        | none => none
                        | some (v2, rest2) =>
                            if headIs (skipWs rest2) ',' then
                              match parseMembers f' (skipWs rest2).tail with
                              | none => none
                              | some (ms2, rest') => some ((String.mk key, v2) :: ms2, rest')
                            else if headIs (skipWs rest2) '\x7d' then
                              some ([(String.mk key, v2)], (skipWs rest2).tail)
                            else none
                      else none) = some ([(k, v)], rest)
                rw [parseStringBody_esc k.toList (':' :: (strJ v ++ '\x7d' :: rest))]
                show (if headIs (skipWs (':' :: (strJ v ++ '\x7d' :: rest))) ':' then
                    match parseValue f' (skipWs (':' :: (strJ v ++ '\x7d' :: rest))).tail with
                    | none => none
                    | some (v2, rest2) =>
                        if headIs (skipWs rest2) ',' then
                          match parseMembers f' (skipWs rest2).tail with
                          | none => none
                          | some (ms2, rest') => some ((String.mk k.toList, v2) :: ms2, rest')
                        else if headIs (skipWs rest2) '\x7d' then
                          some ([(String.mk k.toList, v2)], (skipWs rest2).tail)
                        else none
                  else none) = some ([(k, v)], rest)
                rw [show skipWs (':' :: (strJ v ++ '\x7d' :: rest)) =
                  ':' :: (strJ v ++ '\x7d' :: rest) from rfl]
                rw [show headIs (':' :: (strJ v ++ '\x7d' :: rest)) ':' = true from rfl]
                simp only [if_true]
                have harith : 2 * (strJ v).length + 1 ≤ f' := by
                  simp only [strMembers, List.length_cons, List.length_append] at hf
                  omega
                rw [show (':' :: (strJ v ++ '\x7d' :: rest)).tail =
                  strJ v ++ '\x7d' :: rest from rfl]
                rw [(IH f' (by omega)).1 v ('\x7d' :: rest) harith rfl]
                show some ([(String.mk k.toList, v)], rest) = some ([(k, v)], rest)
                rw [string_mk_toList]
            | cons m2 t2 =>
                rw [show strMembers ((k, v) :: m2 :: t2) ++ '\x7d' :: rest =
                  '"' :: (escChars k.toList ++ '"' ::
                    (':' :: (strJ v ++ ',' :: (strMembers (m2 :: t2) ++ '\x7d' :: rest)))) by
                    simp [strMembers]]
                rw [parseMembers_succ_eq]
                show (match parseStringBody
                    (escChars k.toList ++ '"' ::
                      (':' :: (strJ v ++ ',' :: (strMembers (m2 :: t2) ++ '\x7d' :: rest)))) with
                  | none => none
                  | some (key, rest1) =>
                      if headIs (skipWs rest1) ':' then
                        match parseValue f' (skipWs rest1).tail with
                        | none => none
                        | some (v2, rest2) =>
                            if headIs (skipWs rest2) ',' then
                              match parseMembers f' (skipWs rest2).tail with
                              | none => none
                              | some (ms2, rest') => some ((String.mk key, v2) :: ms2, rest')
                            else if headIs (skipWs rest2) '\x7d' then
                              some ([(String.mk key, v2)], (skipWs rest2).tail)
                            else none
                      else none) = some ((k, v) :: m2 :: t2, rest)
                rw [parseStringBody_esc k.toList
                  (':' :: (strJ v ++ ',' :: (strMembers (m2 :: t2) ++ '\x7d' :: rest)))]
                show (if headIs (skipWs (':' :: (strJ v ++ ',' ::
                      (strMembers (m2 :: t2) ++ '\x7d' :: rest)))) ':' then
                    match parseValue f'
                        (skipWs (':' :: (strJ v ++ ',' ::
                          (strMembers (m2 :: t2) ++ '\x7d' :: rest)))).tail with
                    | none => none
                    | some (v2, rest2) =>
                        if headIs (skipWs rest2) ',' then
                          match parseMembers f' (skipWs rest2).tail with
                          | none => none
                          | some (ms2, rest') => some ((String.mk k.toList, v2) :: ms2, rest')
                        else if headIs (skipWs rest2) '\x7d' then
                          some ([(String.mk k.toList, v2)], (skipWs rest2).tail)
                        else none
                  else none) = some ((k, v) :: m2 :: t2, rest)
                rw [show skipWs (':' :: (strJ v ++ ',' ::
                    (strMembers (m2 :: t2) ++ '\x7d' :: rest))) =
                  ':' :: (strJ v ++ ',' :: (strMembers (m2 :: t2) ++ '\x7d' :: rest)) from rfl]
                rw [show headIs (':' :: (strJ v ++ ',' ::
                    (strMembers (m2 :: t2) ++ '\x7d' :: rest))) ':' = true from rfl]
                simp only [if_true]
                rw [show (':' :: (strJ v ++ ',' ::
                    (strMembers (m2 :: t2) ++ '\x7d' :: rest))).tail =
                  strJ v ++ ',' :: (strMembers (m2 :: t2) ++ '\x7d' :: rest) from rfl]
                have harith : 2 * (strJ v).length + 1 ≤ f' := by
                  simp only [strMembers, List.length_cons, List.length_append] at hf
                  omega
                rw [(IH f' (by omega)).1 v
                  (',' :: (strMembers (m2 :: t2) ++ '\x7d' :: rest)) harith rfl]
                show (match parseMembers f' (strMembers (m2 :: t2) ++ '\x7d' :: rest) with
                  | none => none
                  | some (ms2, rest') => some ((String.mk k.toList, v) :: ms2, rest')) =
                  some ((k, v) :: m2 :: t2, rest)
                have harith2 : 2 * (strMembers (m2 :: t2)).length + 2 ≤ f' := by
                  simp only [strMembers, List.length_cons, List.length_append] at hf
                  omega
                rw [(IH f' (by omega)).2.2 (m2 :: t2) rest (by simp) harith2 hsep]
                show some ((String.mk k.toList, v) :: m2 :: t2, rest) =
                  some ((k, v) :: m2 :: t2, rest)
                rw [string_mk_toList]

/-- JSON.parse inverts JSON.stringify on every modelled JSON value. -/
theorem jsonParse_stringify (j : Json) : jsonParse (jsonStringify j) = some j := by
  have h := (parseRoundTripAux (2 * (strJ j).length + 2)).1 j [] (by omega) rfl
  rw [List.append_nil] at h
  show (match parseValue (2 * (strJ j).length + 2) (strJ j) with
    | none => none
    | some (j', rest) => if skipWs rest = [] then some j' else none) = some j
  rw [h]
  rfl

theorem runDiscoverAll_occupied : ∀ (hunters : List String) (h0 : String),
    countSettled (runDiscoverAll hunters (some h0)).2 = 0 ∧
    countClaimed (runDiscoverAll hunters (some h0)).2 = hunters.length := by
  intro hunters
  induction hunters with
  | nil => intro h0; exact ⟨rfl, rfl⟩
  | cons x t ih =>
      intro h0
      have h := ih h0
      simp only [runDiscoverAll, commitDiscovery, countSettled, countClaimed, List.length_cons]
      omega

/-- The level-up loop preserves the rank-from-level invariant and never
lowers the level. -/
theorem levelUpLoopF_invariant : ∀ (fuel : Nat) (st : LevelState),
    st.rank = rankOfLevel st.level →
    (levelUpLoopF fuel st).rank = rankOfLevel (levelUpLoopF fuel st).level ∧
    st.level ≤ (levelUpLoopF fuel st).level := by
  intro fuel
  induction fuel with
  | zero => intro st h; exact ⟨h, Nat.le_refl _⟩
  | succ f ih =>
      intro st h
      by_cases hc : st.experienceToNext ≤ st.experience
      · have step := ih
          { experience := st.experience - st.experienceToNext
            experienceToNext := (st.level + 1) * 100
            level := st.level + 1
            rank := rankOfLevel (st.level + 1) } rfl
        simp only [levelUpLoopF, hc, if_true]
        refine ⟨step.1, ?_⟩
        have h2 : st.level + 1 ≤ (levelUpLoopF f
          { experience := st.experience - st.experienceToNext
            experienceToNext := (st.level + 1) * 100
            level := st.level + 1
            rank := rankOfLevel (st.level + 1) }).level := step.2
        omega
      · simp only [levelUpLoopF, hc, if_false]
        exact ⟨h, Nat.le_refl _⟩

/-- rankOfLevel is monotone in the level. -/
theorem rankOfLevel_mono : ∀ a k : Nat,
    rankToNat (rankOfLevel a) ≤ rankToNat (rankOfLevel (a + k)) := by
  intro a k
  unfold rankOfLevel
  split_ifs <;> simp [rankToNat] <;> omega

/-- A success of parseNamedNFCFormat is the fixed-metadata object. -/
theorem parseNamedNFCFormat_fields : ∀ (now : Int) (s : String) (t : Json),
    parseNamedNFCFormat now s = .ok t →
    jsGet t "rarity" = some (.num 2) ∧ jsGet t "requiredRank" = some (.num 1) ∧
    jsGet t "rewardPoints" = some (.num 250) := by
  intro now s t h
  unfold parseNamedNFCFormat at h
  split at h
  · cases h
  · split at h
    · cases h
    · split at h
      · cases h
      · cases h
        exact ⟨rfl, rfl, rfl⟩

/-- A string that fails to parse as JSON makes parseTreasureFromPayload
fail in both of its branches. -/
theorem parseTreasureFromPayload_noJson : ∀ (now : Int) (s : String),
    jsonParse s = none → isOkE (parseTreasureFromPayload now s) = false := by
  intro now s h
  unfold parseTreasureFromPayload parseNamedNFCFormat
  rw [h]
  by_cases hb : (strContains s "treasure_name" && strContains s "nfc_data") = true
  · rw [if_pos hb]
    rfl
  · rw [if_neg hb]
    rfl

/-! ### Claim theorems -/

/-- Claim C1: for any treasureId, at most one Discovery ever reaches Settled
status: N concurrent discover calls (any interleaving of their atomic
commits against an unclaimed slot, N at least 1) produce exactly one
settled outcome, and the other N - 1 receive the already-claimed
(CommitConflict) rejection.  The store constraint is modelled from the
spec, since the backing store is not part of src/. -/
theorem c1_at_most_once_settlement (hunters : List String) (hne : hunters ≠ []) :
    countSettled (runDiscoverAll hunters none).2 = 1 ∧
    (runDiscoverAll hunters none).2.length = hunters.length ∧
    countClaimed (runDiscoverAll hunters none).2 = hunters.length - 1 := by
  cases hunters with
  | nil => exact absurd rfl hne
  | cons x t =>
      have h := runDiscoverAll_occupied t x
      have hlen : ∀ (hs : List String) (slot : Option String),
          (runDiscoverAll hs slot).2.length = hs.length := by
        intro hs
        induction hs with
        | nil => intro slot; rfl
        | cons y ys ih =>
            intro slot
            simp [runDiscoverAll, ih]
      simp only [runDiscoverAll, commitDiscovery, countSettled, countClaimed,
        List.length_cons]
      have hl := hlen t (some x)
      omega

/-- Claim C1 witness: three concurrent claimants for one treasure produce
exactly one settled outcome and two conflicts. -/
theorem c1_at_most_once_settlement_witness :
    (["alice", "bob", "carol"] : List String) ≠ [] ∧
    countSettled (runDiscoverAll ["alice", "bob", "carol"] none).2 = 1 ∧
    countClaimed (runDiscoverAll ["alice", "bob", "carol"] none).2 = 2 := by
  have h := c1_at_most_once_settlement ["alice", "bob", "carol"] (by simp)
  exact ⟨by simp, h.1, h.2.2⟩

/-- Claim C2 counterexample: a settlement taking a Beginner hunter from 4
to 5 treasures leaves the rank Beginner; the claim demands the rank become
Explorer at the 5-treasure threshold. -/
theorem c2_counterexample :
    (incrementTreasuresFound "2024-01-02T00:00:00.000Z" c2profile).totalTreasuresFound = 5 ∧
    (incrementTreasuresFound "2024-01-02T00:00:00.000Z" c2profile).rank = Rank.beginner ∧
    Rank.beginner ≠ Rank.explorer := ⟨rfl, rfl, by decide⟩

/-- Claim C2 as amended: in the code, a settlement (incrementTreasuresFound)
never changes the rank; the rank is instead a pure monotonic function of
the level, maintained by the addExperience reducer with thresholds level
5 Explorer, 10 Adventurer, 15 Expert, 20 Master Hunter, and it never
decreases under addExperience; the treasure thresholds 5, 20 and 50 appear
only in the getNextRankRequirement display helper. -/
theorem c2_rank_function_of_level :
    (∀ (amount : Nat) (p : HunterProfileM),
      (addExperience amount { p with rank := rankOfLevel p.level }).rank =
        rankOfLevel (addExperience amount { p with rank := rankOfLevel p.level }).level ∧
      p.level ≤ (addExperience amount { p with rank := rankOfLevel p.level }).level ∧
      rankToNat (rankOfLevel p.level) ≤
        rankToNat (addExperience amount { p with rank := rankOfLevel p.level }).rank) ∧
    (∀ a k : Nat, rankToNat (rankOfLevel a) ≤ rankToNat (rankOfLevel (a + k))) ∧
    (∀ (now : String) (p : HunterProfileM),
      (incrementTreasuresFound now p).rank = p.rank) ∧
    (∀ n : Nat,
      getNextRankRequirement "Beginner" n = ("Explorer", 5 - n) ∧
      getNextRankRequirement "Explorer" n = ("Hunter", 20 - n) ∧
      getNextRankRequirement "Hunter" n = ("Master", 50 - n) ∧
      getNextRankRequirement "Master" n = ("Max Level", 0)) := by
  refine ⟨?_, rankOfLevel_mono, fun now p => rfl, fun n => ⟨rfl, rfl, rfl, rfl⟩⟩
  intro amount p
  have hinv := levelUpLoopF_invariant (p.experience + amount + 2)
    { experience := p.experience + amount
      experienceToNext := p.experienceToNext
      level := p.level
      rank := rankOfLevel p.level } rfl
  refine ⟨hinv.1, hinv.2, ?_⟩
  have hlev : p.level ≤ (addExperience amount { p with rank := rankOfLevel p.level }).level :=
    hinv.2
  have hrank : (addExperience amount { p with rank := rankOfLevel p.level }).rank =
      rankOfLevel (addExperience amount { p with rank := rankOfLevel p.level }).level :=
    hinv.1
  rw [hrank]
  have := rankOfLevel_mono p.level
    ((addExperience amount { p with rank := rankOfLevel p.level }).level - p.level)
  rw [Nat.add_sub_cancel' hlev] at this
  exact this

/-- Claim C4 counterexample: the shipped proximity check compares the
server-reported distance field of the nearby treasure against a
hard-coded 5000 meters; it computes no haversine between the fix and the
treasure's registered coordinates (calculateDistance of
hooks/useProfile.ts is called nowhere in the sources) and knows no
100-meter policy.  At a fix reported 5000 meters away — the distance the
spec's own scenario rejects with TooFar, far beyond the spec verifier's
default maxDistanceMeters of 100 — the code routes to the hunt screen
while the spec verifier rejects. -/
theorem c4_counterexample :
    navigateToTreasure ⟨"t1", 5000⟩ = NavOutcome.huntRoute "t1" ∧
    specProximityAccepts 5000 specMaxDistanceMeters = false ∧
    specProximityAccepts specMaxDistanceMeters specMaxDistanceMeters = true ∧
    specProximityAccepts (specMaxDistanceMeters + 1) specMaxDistanceMeters
      = false := by
  refine ⟨by norm_num [navigateToTreasure], ?_, ?_, ?_⟩ <;>
    norm_num [specProximityAccepts, specMaxDistanceMeters]

/-- Claim C4 (amended): the shipped proximity check routes to the hunt
exactly when the server-reported distance, compared unrounded, is at most
the code's 5000-meter threshold: a fix exactly at 5000 meters is
accepted, one at 5001 meters is rejected with the too-far alert. -/
theorem c4_threshold_guard :
    (∀ t : NearbyTreasureM,
      navigateToTreasure t =
        if t.distance ≤ 5000 then NavOutcome.huntRoute t.treasureId
        else NavOutcome.tooFarAlert) ∧
    navigateToTreasure ⟨"t1", 5000⟩ = NavOutcome.huntRoute "t1" ∧
    navigateToTreasure ⟨"t1", 5001⟩ = NavOutcome.tooFarAlert := by
  refine ⟨?_, by norm_num [navigateToTreasure], by norm_num [navigateToTreasure]⟩
  intro t
  unfold navigateToTreasure
  rcases le_or_lt t.distance 5000 with h | h
  · rw [if_neg (not_lt.mpr h), if_pos h]
  · rw [if_pos h, if_neg (not_le.mpr h)]

/-- Claim C5 counterexample: the settlement update does not recompute the
rank from totalTreasuresFound: a hunter reaching 5 treasures keeps rank
Beginner while the claimed pure function yields Explorer (the profile also
has no totalScore field to add reward points to). -/
theorem c5_counterexample :
    (incrementTreasuresFound "2025-06-01T00:00:00.000Z" c5profile).totalTreasuresFound = 5 ∧
    (incrementTreasuresFound "2025-06-01T00:00:00.000Z" c5profile).rank = Rank.beginner ∧
    specRankOfTreasures 5 = SpecRank.explorer ∧
    Rank.beginner ≠ Rank.explorer := ⟨rfl, rfl, by decide, by decide⟩

/-- Claim C5 as amended: the settlement reducer increments
totalTreasuresFound by exactly 1, increments currentStreak unconditionally
(no streak-window check), raises longestStreak to the new streak when
passed, stamps lastActiveAt with the current time, and leaves rank, level
and experience unchanged; the separate resetStreak reducer sets the streak
to 0, not 1; no score field exists on the profile. -/
theorem c5_settlement_update (now : String) (p : HunterProfileM) :
    (incrementTreasuresFound now p).totalTreasuresFound = p.totalTreasuresFound + 1 ∧
    (incrementTreasuresFound now p).currentStreak = p.currentStreak + 1 ∧
    (incrementTreasuresFound now p).longestStreak =
      max p.longestStreak (p.currentStreak + 1) ∧
    (incrementTreasuresFound now p).lastActiveAt = now ∧
    (incrementTreasuresFound now p).rank = p.rank ∧
    (incrementTreasuresFound now p).level = p.level ∧
    (incrementTreasuresFound now p).experience = p.experience ∧
    (resetStreak p).currentStreak = 0 := by
  refine ⟨rfl, rfl, ?_, rfl, rfl, rfl, rfl, rfl⟩
  simp only [incrementTreasuresFound]
  rcases Nat.lt_or_ge p.longestStreak (p.currentStreak + 1) with h | h
  · rw [if_pos h, Nat.max_eq_right (by omega)]
  · rw [if_neg (by omega), Nat.max_eq_left (by omega)]

/-- Claim C7: when the wallet balance is below the 0.05 SUI gas minimum,
findTreasure fails with the insufficient-funds error before any transaction
is submitted to the ledger and without writing the local cache; and a
ledger rejection (failed transaction status) is terminal: the single
submitted transaction yields an error result, no retry and no state
change. -/
theorem c7_insufficient_funds_before_submit :
    (∀ env : FindTreasureEnv, env.balanceSui < 5 / 100 →
      (findTreasure env).result = .error insufficientFundsMsg ∧
      (findTreasure env).submitted = false ∧
      (findTreasure env).storedLocally = false) ∧
    (∀ (env : FindTreasureEnv) (r : ExecResult) (a b : String),
      ¬env.balanceSui < 5 / 100 → env.registry = .ok a → env.profile = .ok b →
      env.execOutcome = .ok r → r.statusSuccess = false →
      (findTreasure env).result = .error (mapFindError ("Transaction failed: " ++
        r.statusError.getD "Unknown transaction error")) ∧
      (findTreasure env).submitted = true ∧
      (findTreasure env).storedLocally = false) := by
  constructor
  · intro env h
    have hmap : mapFindError insufficientFundsMsg = insufficientFundsMsg := rfl
    unfold findTreasure
    rw [if_pos h, hmap]
    exact ⟨rfl, rfl, rfl⟩
  · intro env r a b hbal hreg hprof hexec hstatus
    unfold findTreasure
    rw [if_neg hbal, hreg, hprof, hexec]
    simp only [hstatus]
    exact ⟨rfl, rfl, rfl⟩

/-- Claim C7 witness: a concrete zero-balance environment hits the
insufficient-funds guard with no submission, and a concrete rejected
transaction surfaces the terminal transaction-failed error. -/
theorem c7_insufficient_funds_before_submit_witness :
    ((0 : ℚ) < 5 / 100 ∧
      (findTreasure ⟨0, .ok "reg", .ok "prof", .ok ⟨true, none, some "nft", "dig"⟩⟩).result =
        .error insufficientFundsMsg) ∧
    ((findTreasure ⟨1, .ok "reg", .ok "prof", .ok ⟨false, some "gas", none, "dig"⟩⟩).result =
        .error (mapFindError ("Transaction failed: " ++ "gas"))) := by
  constructor
  · exact ⟨by norm_num, (c7_insufficient_funds_before_submit.1 _ (by norm_num)).1⟩
  · exact (c7_insufficient_funds_before_submit.2
      ⟨1, .ok "reg", .ok "prof", .ok ⟨false, some "gas", none, "dig"⟩⟩
      ⟨false, some "gas", none, "dig"⟩ "reg" "prof"
      (by norm_num) rfl rfl rfl rfl).1

/-- Claim C8: the five terminal error kinds of the discovery pipeline (too
far, already claimed, rank too low, invalid treasure, insufficient funds)
surface as five pairwise distinct specific errors, never collapsed into one
generic error. -/
theorem c8_distinct_terminal_errors (k1 k2 : TerminalKind) (h : k1 ≠ k2) :
    surfaceError k1 ≠ surfaceError k2 := by
  cases k1 <;> cases k2 <;> first
    | exact absurd rfl h
    | decide

/-- Claim C8 witness: too-far and already-claimed are distinct kinds with
distinct surfaced errors. -/
theorem c8_distinct_terminal_errors_witness :
    TerminalKind.tooFar ≠ TerminalKind.alreadyClaimed ∧
    surfaceError TerminalKind.tooFar ≠ surfaceError TerminalKind.alreadyClaimed :=
  ⟨by decide, c8_distinct_terminal_errors TerminalKind.tooFar TerminalKind.alreadyClaimed
    (by decide)⟩

/-- Claim C9: the QR pair is a round trip: parseQRData on generateQRData of
any treasure value succeeds and returns exactly that value's JSON image, and
the JSON image determines the value (the encoding is injective), so the
returned object deep-equals the input. -/
theorem c9_qr_round_trip :
    (∀ d : TreasureNFCData,
      parseQRData (generateQRData d) = .ok (encodeTreasureData d)) ∧
    Function.Injective encodeTreasureData := by
  constructor
  · intro d
    unfold generateQRData parseQRData
    rw [jsonParse_stringify]
    rfl
  · intro d1 d2 h
    obtain ⟨t1, n1, de1, r1, c1, l1, i1, rq1, rp1, ca1, sg1⟩ := d1
    obtain ⟨t2, n2, de2, r2, c2, l2, i2, rq2, rp2, ca2, sg2⟩ := d2
    cases i1 <;> cases i2 <;> cases sg1 <;> cases sg2 <;>
      simp_all [encodeTreasureData]

/-- Claim C9 witness: the round trip and injectivity at a concrete treasure
value. -/
theorem c9_qr_round_trip_witness :
    parseQRData (generateQRData sampleTreasure) = .ok (encodeTreasureData sampleTreasure) ∧
    (encodeTreasureData sampleTreasure = encodeTreasureData sampleTreasure ∧
      sampleTreasure = sampleTreasure) :=
  ⟨c9_qr_round_trip.1 sampleTreasure, rfl, c9_qr_round_trip.2 rfl⟩

/-- Claim C6 counterexample: a payload tagged with the unsupported version
'9.9' is accepted by parseQRData, which never inspects the version field;
the claim requires a DecodeError for an unsupported version. -/
theorem c6_counterexample :
    parseQRData c6payload = .ok c6okJson ∧ ("9.9" : String) ≠ "1.0" :=
  ⟨rfl, by decide⟩

/-- Claim C6 as amended: parseQRData treats the payload as a single JSON
document and fails when the document does not parse, when the type tag is
not 'treasure_hunt_qr', or when the data field is missing or falsy; the
version discriminator is not validated: any version value is accepted. -/
theorem c6_type_checked_version_ignored :
    (∀ v dta : Json, truthy dta = true →
      parseQRData (jsonStringify (Json.obj
        [("type", Json.str "treasure_hunt_qr"), ("version", v), ("data", dta)])) =
        .ok dta) ∧
    (∀ (ty : String) (v dta : Json), ty ≠ "treasure_hunt_qr" →
      parseQRData (jsonStringify (Json.obj
        [("type", Json.str ty), ("version", v), ("data", dta)])) =
        .error "Invalid QR data: Invalid QR treasure data format") ∧
    (∀ s : String, jsonParse s = none →
      parseQRData s = .error "Invalid QR data: JSON parse error") := by
  refine ⟨?_, ?_, ?_⟩
  · intro v dta h
    unfold parseQRData
    rw [jsonParse_stringify]
    have htype : jsGet (Json.obj
        [("type", Json.str "treasure_hunt_qr"), ("version", v), ("data", dta)]) "type" =
        some (Json.str "treasure_hunt_qr") := rfl
    have hdata : jsGet (Json.obj
        [("type", Json.str "treasure_hunt_qr"), ("version", v), ("data", dta)]) "data" =
        some dta := rfl
    simp [htype, hdata, isTypeQR, truthyO, h]
  · intro ty v dta hty
    unfold parseQRData
    rw [jsonParse_stringify]
    have htype : jsGet (Json.obj
        [("type", Json.str ty), ("version", v), ("data", dta)]) "type" =
        some (Json.str ty) := rfl
    have hbeq : (ty == "treasure_hunt_qr") = false := beq_eq_false_iff_ne.mpr hty
    simp [htype, isTypeQR, hbeq]
  · intro s h
    unfold parseQRData
    rw [h]

/-- Claim C6 witness: version '9.9' is accepted with a truthy data object;
an unknown type and an unparseable payload are rejected. -/
theorem c6_type_checked_version_ignored_witness :
    (truthy c6okJson = true ∧
      parseQRData (jsonStringify (Json.obj
        [("type", Json.str "treasure_hunt_qr"), ("version", Json.str "9.9"),
         ("data", c6okJson)])) = .ok c6okJson) ∧
    (("not_a_treasure_qr" : String) ≠ "treasure_hunt_qr" ∧
      parseQRData (jsonStringify (Json.obj
        [("type", Json.str "not_a_treasure_qr"), ("version", Json.null),
         ("data", Json.null)])) =
        .error "Invalid QR data: Invalid QR treasure data format") ∧
    (jsonParse "garbage" = none ∧
      parseQRData "garbage" = .error "Invalid QR data: JSON parse error") :=
  ⟨⟨rfl, c6_type_checked_version_ignored.1 (Json.str "9.9") c6okJson rfl⟩,
   ⟨by decide, c6_type_checked_version_ignored.2.1 "not_a_treasure_qr" Json.null Json.null
      (by decide)⟩,
   ⟨rfl, c6_type_checked_version_ignored.2.2 "garbage" rfl⟩⟩

/-- Claim C3 counterexample: on a payload whose standard text-record decode
succeeds but yields a string unparseable as JSON, the decoder returns the
parse failure of that first strategy instead of falling through to the
3-byte-skip strategy, which would succeed. -/
theorem c3_counterexample :
    processNFCTag 0 c3payload = .error "Unrecognized payload format" ∧
    (decodePayloadStd c3payload).isSome = true ∧
    jsonParse ((decodePayloadStd c3payload).getD "") = none ∧
    isOkE (parseTreasureFromPayload 0 (decodeUtf8Lenient (c3payload.drop 3))) = true :=
  ⟨rfl, rfl, rfl, rfl⟩

/-- Claim C3 as amended: the decoder uses the standard NDEF text decode
whenever it succeeds, with no fallback on a JSON parse failure of its
output (such a payload fails outright even when a skip decode would parse);
only when the standard decode throws does it try raw UTF-8 decodes with
skips 0, 1, 2, 3, 4, 5 in that order, taking the first whose output
contains 'treasure_name' or an opening brace. -/
theorem c3_decode_no_fallthrough :
    (∀ (now : Int) (payload : List Nat) (s : String),
      decodePayloadStd payload = some s →
      processNFCTag now payload = parseTreasureFromPayload now s) ∧
    (∀ (now : Int) (payload : List Nat) (s : String),
      decodePayloadStd payload = some s → jsonParse s = none →
      isOkE (processNFCTag now payload) = false) ∧
    (∀ (now : Int) (payload : List Nat) (k : Nat),
      decodePayloadStd payload = none → k < 6 →
      acceptDecode (decodeUtf8Lenient (payload.drop k)) = true →
      (∀ i, i < k → acceptDecode (decodeUtf8Lenient (payload.drop i)) = false) →
      processNFCTag now payload =
        parseTreasureFromPayload now (decodeUtf8Lenient (payload.drop k))) := by
  refine ⟨?_, ?_, ?_⟩
  · intro now payload s h
    unfold processNFCTag
    rw [h]
  · intro now payload s h hjson
    unfold processNFCTag
    rw [h]
    exact parseTreasureFromPayload_noJson now s hjson
  · intro now payload k hnone hk hacc hbefore
    unfold processNFCTag
    rw [hnone]
    unfold tryDecodeSkips
    interval_cases k
    · have h0 : acceptDecode (decodeUtf8Lenient payload) = true := by simpa using hacc
      simp [goSkips, h0]
    · have hb0 : acceptDecode (decodeUtf8Lenient payload) = false := by
        simpa using hbefore 0 (by omega)
      have h1 : acceptDecode (decodeUtf8Lenient payload.tail) = true := by simpa using hacc
      simp [goSkips, hb0, h1]
    · have hb0 : acceptDecode (decodeUtf8Lenient payload) = false := by
        simpa using hbefore 0 (by omega)
      have hb1 : acceptDecode (decodeUtf8Lenient payload.tail) = false := by
        simpa using hbefore 1 (by omega)
      simp [goSkips, hb0, hb1, hacc]
    · have hb0 : acceptDecode (decodeUtf8Lenient payload) = false := by
        simpa using hbefore 0 (by omega)
      have hb1 : acceptDecode (decodeUtf8Lenient payload.tail) = false := by
        simpa using hbefore 1 (by omega)
      simp [goSkips, hb0, hb1, hbefore 2 (by omega), hacc]
    · have hb0 : acceptDecode (decodeUtf8Lenient payload) = false := by
        simpa using hbefore 0 (by omega)
      have hb1 : acceptDecode (decodeUtf8Lenient payload.tail) = false := by
        simpa using hbefore 1 (by omega)
      simp [goSkips, hb0, hb1, hbefore 2 (by omega), hbefore 3 (by omega), hacc]
    · have hb0 : acceptDecode (decodeUtf8Lenient payload) = false := by
        simpa using hbefore 0 (by omega)
      have hb1 : acceptDecode (decodeUtf8Lenient payload.tail) = false := by
        simpa using hbefore 1 (by omega)
      simp [goSkips, hb0, hb1, hbefore 2 (by omega), hbefore 3 (by omega),
        hbefore 4 (by omega), hacc]

/-- Claim C3 witness: the no-fallback path on the corrupted-status-byte
payload, the resulting overall failure, and the fallback path on a payload
whose standard decode fails, accepted at skip 0. -/
theorem c3_decode_no_fallthrough_witness :
    (decodePayloadStd c3payload = some (decodeUtf8Lenient (c3payload.drop 6)) ∧
      processNFCTag 0 c3payload =
        parseTreasureFromPayload 0 (decodeUtf8Lenient (c3payload.drop 6))) ∧
    (jsonParse (decodeUtf8Lenient (c3payload.drop 6)) = none ∧
      isOkE (processNFCTag 0 c3payload) = false) ∧
    (decodePayloadStd c3payloadB = none ∧
      acceptDecode (decodeUtf8Lenient (c3payloadB.drop 0)) = true ∧
      processNFCTag 0 c3payloadB =
        parseTreasureFromPayload 0 (decodeUtf8Lenient (c3payloadB.drop 0))) :=
  ⟨⟨rfl, c3_decode_no_fallthrough.1 0 c3payload _ rfl⟩,
   ⟨rfl, c3_decode_no_fallthrough.2.1 0 c3payload (decodeUtf8Lenient (c3payload.drop 6))
      rfl rfl⟩,
   ⟨rfl, rfl, c3_decode_no_fallthrough.2.2 0 c3payloadB 0 rfl (by omega) rfl
      (fun i hi => absurd hi (by omega))⟩⟩

/-- Claim C10: every NFC payload in the 'treasure_name'/'nfc_data' format
that parses successfully yields a claim with rarity 2, requiredRank 1 and
rewardPoints 250, whatever rarity, rank or reward values the scanned
payload carries; this holds for both NFC service variants. -/
theorem c10_fixed_reward_metadata (now : Int) (s : String) (t : Json)
    (h1 : strContains s "treasure_name" = true) (h2 : strContains s "nfc_data" = true) :
    (parseTreasureFromPayload now s = .ok t →
      jsGet t "rarity" = some (.num 2) ∧ jsGet t "requiredRank" = some (.num 1) ∧
      jsGet t "rewardPoints" = some (.num 250)) ∧
    (altParseTreasureFromPayload now s = .ok t →
      jsGet t "rarity" = some (.num 2) ∧ jsGet t "requiredRank" = some (.num 1) ∧
      jsGet t "rewardPoints" = some (.num 250)) := by
  have hbr : (strContains s "treasure_name" && strContains s "nfc_data") = true := by
    rw [h1, h2]
    rfl
  constructor
  · intro h
    unfold parseTreasureFromPayload at h
    rw [if_pos hbr] at h
    exact parseNamedNFCFormat_fields now s t h
  · intro h
    unfold altParseTreasureFromPayload at h
    rw [if_pos hbr] at h
    exact parseNamedNFCFormat_fields now s t h

/-- Claim C10 witness: a payload carrying rarity 9, rank 4 and reward 5
still parses to rarity 2, requiredRank 1 and rewardPoints 250. -/
theorem c10_fixed_reward_metadata_witness :
    strContains c10payload "treasure_name" = true ∧
    strContains c10payload "nfc_data" = true ∧
    parseTreasureFromPayload 0 c10payload = .ok c10result ∧
    (jsGet c10result "rarity" = some (.num 2) ∧
      jsGet c10result "requiredRank" = some (.num 1) ∧
      jsGet c10result "rewardPoints" = some (.num 250)) :=
  ⟨rfl, rfl, rfl,
    (c10_fixed_reward_metadata 0 c10payload c10result rfl rfl).1 rfl⟩
